import Mathlib

/-!
Verification of the armature deformation kernel
(`source/blender/blenkernel/intern/armature_deform.cc`).

The C code is shallowly embedded over the real numbers: `float` becomes `ℝ`,
3-vectors become `Fin 3 → ℝ`, 3×3 matrices become `Matrix (Fin 3) (Fin 3) ℝ`,
and the affine 4×4 matrices used by the kernel (`premat`, `postmat`,
`chan_mat`, the B-Bone segment matrices) become a linear part plus a
translation.  Dual quaternions and their blending operations live in external
BLI math files that are not part of the reviewed sources, so the dual
quaternion type and its four operations (`add_weighted_dq_dq_pivot`,
`normalize_dq`, the position and matrix parts of `mul_v3m3_dq`) are kept
abstract as parameters of the development; every theorem below holds for any
choice of these operations.  Pointer-valued outputs (vertex coordinates, the
optional per-vertex deformation matrix, the scratch slot in the
previous-coordinates buffer) are modelled as `Option` results: `none` means
the C code never wrote through that pointer.
-/

set_option maxHeartbeats 1000000

namespace ArmatureDeform

noncomputable section

abbrev V3 : Type := Fin 3 → ℝ
abbrev M3 : Type := Matrix (Fin 3) (Fin 3) ℝ

/-- `blender::math::dot` on 3-vectors. -/
def dot_v3 (v w : V3) : ℝ := ∑ i, v i * w i

/-- `blender::math::distance_squared` on 3-vectors. -/
def distance_squared (p q : V3) : ℝ := dot_v3 (p - q) (p - q)

/-- An affine 4×4 matrix as used by the kernel: linear 3×3 part `A` plus
translation column `t` (bottom row `(0,0,0,1)`). -/
structure M4aff where
  A : M3
  t : V3

/-- `mul_m4_v3`: apply an affine matrix to a position. -/
def mul_m4_v3 (M : M4aff) (v : V3) : V3 := Matrix.mulVec M.A v + M.t

/-- `copy_m3_m4`: the linear 3×3 part of an affine 4×4 matrix. -/
def copy_m3_m4 (M : M4aff) : M3 := M.A

/-- `invert_m4_m4` restricted to affine matrices with invertible linear part:
`(A, t)⁻¹ = (A⁻¹, -A⁻¹ t)`. -/
def invert_m4 (M : M4aff) : M4aff := ⟨M.A⁻¹, -(Matrix.mulVec M.A⁻¹ M.t)⟩

/-- `mul_m4_m4m4`: composition of affine matrices (`P` after `Q`). -/
def mul_m4_m4m4 (P Q : M4aff) : M4aff :=
  ⟨P.A * Q.A, Matrix.mulVec P.A Q.t + P.t⟩

/-- `bone_envelope_falloff` (armature_deform.cc lines 49–69), translated
branch for branch.  `math::square x` is `x * x`. -/
def bone_envelope_falloff (distance_squared closest_radius falloff_distance : ℝ) : ℝ :=
  if distance_squared < closest_radius * closest_radius then 1
  else if falloff_distance = 0 ∨
      (closest_radius + falloff_distance) * (closest_radius + falloff_distance) ≤
        distance_squared then 0
  else
    let dist_envelope := Real.sqrt distance_squared - closest_radius
    1 - (dist_envelope * dist_envelope) / (falloff_distance * falloff_distance)

/-- `distfactor_to_bone` (armature_deform.cc lines 71–104).
`math::normalize_and_get_length` returns the zero vector for a zero-length
input, and `math::interpolate a b t = a * (1 - t) + b * t`. -/
def distfactor_to_bone (position head tail : V3)
    (radius_head radius_tail falloff_distance : ℝ) : ℝ :=
  let bone_length := Real.sqrt (dot_v3 (tail - head) (tail - head))
  let bone_axis : V3 := if bone_length = 0 then 0 else bone_length⁻¹ • (tail - head)
  let height := dot_v3 (position - head) bone_axis
  if height < 0 then
    bone_envelope_falloff (distance_squared position head) radius_head falloff_distance
  else if bone_length < height then
    bone_envelope_falloff (distance_squared tail position) radius_tail falloff_distance
  else
    let dsq := distance_squared position head - height * height
    let closest_radius :=
      if bone_length ≠ 0 then
        radius_head * (1 - height / bone_length) + radius_tail * (height / bone_length)
      else radius_head
    bone_envelope_falloff dsq closest_radius falloff_distance

/-! ## Helper lemmas about the falloff kernel -/

theorem dot_v3_self_nonneg (v : V3) : 0 ≤ dot_v3 v v :=
  Finset.sum_nonneg fun i _ => mul_self_nonneg (v i)

theorem distance_squared_nonneg (p q : V3) : 0 ≤ distance_squared p q :=
  dot_v3_self_nonneg _

/-- The envelope falloff always lands in `[0, 1]` on the physical domain
(nonnegative squared distance, nonnegative radius). -/
theorem bone_envelope_falloff_mem_Icc (d2 r f : ℝ) (hd2 : 0 ≤ d2) (hr : 0 ≤ r) :
    bone_envelope_falloff d2 r f ∈ Set.Icc (0 : ℝ) 1 := by
  unfold bone_envelope_falloff
  split
  · exact Set.mem_Icc.mpr ⟨zero_le_one, le_refl 1⟩
  · split
    · exact Set.mem_Icc.mpr ⟨le_refl 0, zero_le_one⟩
    · rename_i hcore hfar
      push_neg at hcore hfar
      obtain ⟨hf, hlt⟩ := hfar
      have hrs : Real.sqrt (r * r) ≤ Real.sqrt d2 := Real.sqrt_le_sqrt hcore
      rw [Real.sqrt_mul_self hr] at hrs
      have hde : 0 ≤ Real.sqrt d2 - r := by linarith
      have hub : Real.sqrt d2 < |r + f| := by
        have := Real.sqrt_lt_sqrt hd2 hlt
        rwa [Real.sqrt_mul_self_eq_abs] at this
      have habs : |r + f| ≤ r + |f| := by
        calc |r + f| ≤ |r| + |f| := abs_add r f
        _ = r + |f| := by rw [abs_of_nonneg hr]
      have hdef : Real.sqrt d2 - r < |f| := by linarith
      have hsq : (Real.sqrt d2 - r) * (Real.sqrt d2 - r) < f * f := by
        have := mul_self_lt_mul_self hde hdef
        rwa [abs_mul_abs_self] at this
      have hf2 : 0 < f * f := lt_of_le_of_lt (mul_self_nonneg _) hsq
      constructor
      · have : (Real.sqrt d2 - r) * (Real.sqrt d2 - r) / (f * f) < 1 :=
          (div_lt_one hf2).mpr hsq
        linarith
      · have : 0 ≤ (Real.sqrt d2 - r) * (Real.sqrt d2 - r) / (f * f) :=
          div_nonneg (mul_self_nonneg _) (le_of_lt hf2)
        linarith

/-- Lagrange-style identity consequence: the squared projection onto a unit
axis never exceeds the squared length. -/
theorem proj_sq_le_len_sq (v a : V3) (ha : dot_v3 a a = 1) :
    dot_v3 v a * dot_v3 v a ≤ dot_v3 v v := by
  have hv : dot_v3 v v = v 0 * v 0 + v 1 * v 1 + v 2 * v 2 := by
    simp [dot_v3, Fin.sum_univ_three]
  have hva : dot_v3 v a = v 0 * a 0 + v 1 * a 1 + v 2 * a 2 := by
    simp [dot_v3, Fin.sum_univ_three]
  have ha' : a 0 * a 0 + a 1 * a 1 + a 2 * a 2 = 1 := by
    have := ha
    simpa [dot_v3, Fin.sum_univ_three] using this
  rw [hv, hva]
  nlinarith [sq_nonneg (v 0 * a 1 - v 1 * a 0), sq_nonneg (v 0 * a 2 - v 2 * a 0),
    sq_nonneg (v 1 * a 2 - v 2 * a 1), sq_nonneg (v 0 * a 0 + v 1 * a 1 + v 2 * a 2)]

/-- The interpolated envelope radius passed to the falloff in the middle
branch of `distfactor_to_bone` is nonnegative, and so is the squared
distance there. -/
theorem distfactor_to_bone_mem_Icc (p hd tl : V3) (rh rt f : ℝ)
    (hrh : 0 ≤ rh) (hrt : 0 ≤ rt) :
    distfactor_to_bone p hd tl rh rt f ∈ Set.Icc (0 : ℝ) 1 := by
  simp only [distfactor_to_bone]
  set len := Real.sqrt (dot_v3 (tl - hd) (tl - hd)) with hlen
  have hlen0 : 0 ≤ len := Real.sqrt_nonneg _
  set axis : V3 := if len = 0 then 0 else len⁻¹ • (tl - hd) with haxis
  set height := dot_v3 (p - hd) axis with hheight
  split
  · exact bone_envelope_falloff_mem_Icc _ _ _ (distance_squared_nonneg _ _) hrh
  · split
    · exact bone_envelope_falloff_mem_Icc _ _ _ (distance_squared_nonneg _ _) hrt
    · rename_i hge hle
      push_neg at hge hle
      by_cases hz : len = 0
      · have hax0 : axis = 0 := by rw [haxis, if_pos hz]
        have hh0 : height = 0 := by
          rw [hheight, hax0]
          simp [dot_v3]
        rw [if_neg (by rw [hz]; simp : ¬len ≠ 0)]
        rw [hh0]
        simpa using
          bone_envelope_falloff_mem_Icc (distance_squared p hd - 0 * 0) rh f
            (by simpa using distance_squared_nonneg p hd) hrh
      · have hlpos : 0 < len := lt_of_le_of_ne hlen0 (Ne.symm hz)
        have hdot : dot_v3 (tl - hd) (tl - hd) = len * len := by
          rw [hlen, Real.mul_self_sqrt (dot_v3_self_nonneg _)]
        have haa : dot_v3 axis axis = 1 := by
          rw [haxis, if_neg hz]
          have hrw : dot_v3 (len⁻¹ • (tl - hd)) (len⁻¹ • (tl - hd)) =
              len⁻¹ * len⁻¹ * dot_v3 (tl - hd) (tl - hd) := by
            unfold dot_v3
            rw [Finset.mul_sum]
            refine Finset.sum_congr rfl fun i _ => ?_
            simp only [Pi.smul_apply, smul_eq_mul]
            ring
          rw [hrw, hdot]
          field_simp
        have hd2 : 0 ≤ distance_squared p hd - height * height := by
          have := proj_sq_le_len_sq (p - hd) axis haa
          rw [hheight]
          unfold distance_squared
          linarith
        have hs01 : 0 ≤ height / len ∧ height / len ≤ 1 := by
          constructor
          · exact div_nonneg hge (le_of_lt hlpos)
          · exact (div_le_one hlpos).mpr hle
        have hrad : 0 ≤ rh * (1 - height / len) + rt * (height / len) := by
          have h1 : 0 ≤ 1 - height / len := by linarith [hs01.2]
          have := mul_nonneg hrh h1
          have := mul_nonneg hrt hs01.1
          linarith
        rw [if_pos hz]
        exact bone_envelope_falloff_mem_Icc _ _ _ hd2 hrad

/-! ## Claims C1, C5, C6 -/

/-- C1: for every nonnegative squared distance, radius, and falloff distance,
`bone_envelope_falloff` returns 1 when `d2 < radius²`; failing that, returns 0
when the falloff is exactly zero or `d2 ≥ (radius + falloff)²`; and otherwise
returns `1 − ((sqrt d2 − radius) / falloff)²`. -/
theorem c1_envelope_falloff_cases (d2 r f : ℝ)
    (hd2 : 0 ≤ d2) (hr : 0 ≤ r) (hf : 0 ≤ f) :
    (d2 < r * r → bone_envelope_falloff d2 r f = 1) ∧
    (¬ d2 < r * r → (f = 0 ∨ (r + f) * (r + f) ≤ d2) →
      bone_envelope_falloff d2 r f = 0) ∧
    (¬ d2 < r * r → ¬ (f = 0 ∨ (r + f) * (r + f) ≤ d2) →
      bone_envelope_falloff d2 r f = 1 - ((Real.sqrt d2 - r) / f) ^ 2) := by
  refine ⟨fun hlt => ?_, fun hge hzero => ?_, fun hge hmid => ?_⟩
  · unfold bone_envelope_falloff
    rw [if_pos hlt]
  · unfold bone_envelope_falloff
    rw [if_neg hge, if_pos hzero]
  · unfold bone_envelope_falloff
    rw [if_neg hge, if_neg hmid]
    have hfne : f ≠ 0 := fun h => hmid (Or.inl h)
    field_simp
    ring

/-- Witness for C1, evaluated at `d2 = 4`, `radius = 1`, `falloff = 2`:
the smooth branch applies and produces `1 − ((√4 − 1)/2)² = 3/4`. -/
theorem c1_envelope_falloff_cases_witness :
    bone_envelope_falloff 4 1 2 = 1 - ((Real.sqrt 4 - 1) / 2) ^ 2 :=
  (c1_envelope_falloff_cases 4 1 2 (by norm_num) (by norm_num) (by norm_num)).2.2
    (by norm_num) (by norm_num)

/-- C5: with a falloff distance of exactly 0 the envelope falloff is a step
function of the core radius: 1 strictly inside `radius²`, 0 otherwise. -/
theorem c5_zero_falloff_step (d2 r : ℝ) :
    bone_envelope_falloff d2 r 0 = if d2 < r * r then 1 else 0 := by
  unfold bone_envelope_falloff
  split
  · rfl
  · rw [if_pos (Or.inl rfl)]

/-- C6 counterexample: the claim asserts that at exactly `d2 = radius²` the
output is exactly 1, with no proviso on the falloff distance; but with
`radius = 1`, `falloff = 0`, `d2 = 1² = 1` the code returns 0. -/
theorem c6_counterexample :
    bone_envelope_falloff (1 * 1) 1 0 = 0 ∧ (0 : ℝ) ≠ 1 := by
  constructor
  · unfold bone_envelope_falloff
    rw [if_neg (by norm_num), if_pos (Or.inl rfl)]
  · norm_num

/-- C6 as amended: for nonnegative radii the output of `distfactor_to_bone`
always lies in `[0, 1]` (in particular for points strictly between the head
and tail bounds); at exactly `d2 = radius²` the output is exactly 1 provided
the falloff distance is positive; and at exactly `d2 = (radius + falloff)²`
the output is exactly 0 for nonnegative falloff. -/
theorem c6_falloff_bounds (p hd tl : V3) (rh rt f r g : ℝ)
    (hrh : 0 ≤ rh) (hrt : 0 ≤ rt) (hr : 0 ≤ r) :
    distfactor_to_bone p hd tl rh rt f ∈ Set.Icc (0 : ℝ) 1 ∧
    (0 < g → bone_envelope_falloff (r * r) r g = 1) ∧
    (0 ≤ g → bone_envelope_falloff ((r + g) * (r + g)) r g = 0) := by
  refine ⟨distfactor_to_bone_mem_Icc p hd tl rh rt f hrh hrt, fun hg => ?_, fun hg => ?_⟩
  · unfold bone_envelope_falloff
    rw [if_neg (lt_irrefl _)]
    have hfar : ¬ (g = 0 ∨ (r + g) * (r + g) ≤ r * r) := by
      push_neg
      refine ⟨ne_of_gt hg, ?_⟩
      nlinarith
    rw [if_neg hfar]
    rw [Real.sqrt_mul_self hr]
    simp
  · unfold bone_envelope_falloff
    have hcore : ¬ (r + g) * (r + g) < r * r := by nlinarith
    rw [if_neg hcore, if_pos (Or.inr (le_refl _))]

/-- Witness for C6 (amended), applied at a degenerate zero-length bone with
unit radii and at `r = 1`, `g = 1`. -/
theorem c6_falloff_bounds_witness :
    distfactor_to_bone (fun _ => 0) (fun _ => 0) (fun _ => 0) 1 1 1 ∈ Set.Icc (0 : ℝ) 1 ∧
    bone_envelope_falloff (1 * 1) 1 1 = 1 ∧
    bone_envelope_falloff ((1 + 1) * (1 + 1)) 1 1 = 0 := by
  obtain ⟨h1, h2, h3⟩ :=
    c6_falloff_bounds (fun _ => 0) (fun _ => 0) (fun _ => 0) 1 1 1 1 1
      (by norm_num) (by norm_num) (by norm_num)
  exact ⟨h1, h2 (by norm_num), h3 (by norm_num)⟩

/-! ## Data model for the per-vertex kernel

The dual quaternion type `Q` and its operations are abstract: they are
implemented by BLI math files outside the reviewed sources.  `addW` stands
for `add_weighted_dq_dq_pivot`, `normDq` for `normalize_dq`, `dqToCo` and
`dqToMat` for the position and 3×3-matrix outputs of `mul_v3m3_dq`, and
`dqZero` for the zero-initialized `DualQuat sumdq = {}`. -/

section Kernel

variable {Q : Type}
variable (addW : Q → Q → V3 → ℝ → Bool → Q)
variable (normDq : Q → ℝ → Q)
variable (dqToCo : Q → V3 → V3)
variable (dqToMat : Q → M3)
variable (dqZero : Q)

/-- The fields of `Bone` read by the deform kernel.  The two flag bits used
are `BONE_NO_DEFORM` and `BONE_MULT_VG_ENV`. -/
structure Bone where
  arm_head : V3
  arm_tail : V3
  rad_head : ℝ
  rad_tail : ℝ
  dist : ℝ
  weight : ℝ
  segments : ℕ
  flag_no_deform : Bool
  flag_mult_vg_env : Bool

/-- The fields of `bPoseChannel` read by the deform kernel.  Pose channels
are modelled with their bone present (the evaluated pose always provides
one; `dist_bone_deform`'s `bone == nullptr` guard then returns 0 for a
channel that would have no bone and is not representable here).
`bbone_segment_index` models the external
`BKE_pchan_bbone_deform_segment_index`, which locates the two adjacent
B-Bone segments for a vertex and a blend factor between them. -/
structure BPoseChannel (Q : Type) where
  name : String
  bone : Bone
  chan_mat : M4aff
  deform_dual_quat : Q
  bbone_segments : ℕ
  bbone_dual_quats : ℕ → Q
  bbone_deform_mats : ℕ → M4aff
  bbone_segment_index : V3 → ℕ × ℝ

/-- One `(bone index, weight)` entry of an `MDeformVert`. -/
structure MDeformWeight where
  def_nr : ℕ
  weight : ℝ

/-- `ArmatureUserdata` (armature_deform.cc lines 237–264), restricted to the
fields the per-vertex task reads.  `chanbase` is `ob_arm->pose->chanbase`. -/
structure ArmatureUserdata (Q : Type) where
  chanbase : List (BPoseChannel Q)
  use_envelope : Bool
  use_quaternion : Bool
  invert_vgroup : Bool
  use_dverts : Bool
  armature_def_nr : Option ℕ
  pchan_from_defbase : List (Option (BPoseChannel Q))
  defbase_len : ℕ
  premat : M4aff
  postmat : M4aff

/-- The per-vertex accumulator: exactly one of the dual-quaternion
accumulator and the displacement-vector/matrix accumulator is active,
matching the `dq_accum` / `co_accum`+`mat_accum` pointer pair. -/
inductive Accum (Q : Type) where
  | linear (vec : V3) (mat : M3)
  | quat (dq : Q)

/-- `pchan_deform_accumulate` (lines 107–139). -/
def pchan_deform_accumulate (deform_dq : Q) (deform_mat : M4aff) (co_in : V3)
    (weight : ℝ) (acc : Accum Q) (full_deform : Bool) : Accum Q :=
  if weight = 0 then acc
  else
    match acc with
    | .quat dq_accum => .quat (addW dq_accum deform_dq co_in weight full_deform)
    | .linear co_accum mat_accum =>
        let tmp := mul_m4_v3 deform_mat co_in - co_in
        .linear (co_accum + weight • tmp)
          (if full_deform then mat_accum + weight • copy_m3_m4 deform_mat else mat_accum)

/-- `b_bone_deform` (lines 141–167). -/
def b_bone_deform (pchan : BPoseChannel Q) (co : V3) (weight : ℝ)
    (acc : Accum Q) (full_deform : Bool) : Accum Q :=
  let quats := pchan.bbone_dual_quats
  let mats := pchan.bbone_deform_mats
  let ib := pchan.bbone_segment_index co
  let index := ib.1
  let blend := ib.2
  let acc1 := pchan_deform_accumulate addW (quats index) (mats (index + 1)) co
      (weight * (1 - blend)) acc full_deform
  pchan_deform_accumulate addW (quats (index + 1)) (mats (index + 2)) co
      (weight * blend) acc1 full_deform

/-- `dist_bone_deform` (lines 169–201): returns the updated accumulator and
the contribution of this channel. -/
def dist_bone_deform (pchan : BPoseChannel Q) (acc : Accum Q) (co : V3)
    (full_deform : Bool) : Accum Q × ℝ :=
  let bone := pchan.bone
  let fac := distfactor_to_bone co bone.arm_head bone.arm_tail bone.rad_head
      bone.rad_tail bone.dist
  if 0 < fac then
    let fac2 := fac * bone.weight
    if 0 < fac2 then
      if 1 < bone.segments ∧ pchan.bbone_segments = bone.segments then
        (b_bone_deform addW pchan co fac2 acc full_deform, fac2)
      else
        (pchan_deform_accumulate addW pchan.deform_dual_quat pchan.chan_mat co fac2 acc
          full_deform, fac2)
    else (acc, fac2)
  else (acc, 0)

/-- `pchan_bone_deform` (lines 203–227). -/
def pchan_bone_deform (pchan : BPoseChannel Q) (weight : ℝ) (acc : Accum Q)
    (co : V3) (full_deform : Bool) (contrib : ℝ) : Accum Q × ℝ :=
  if weight = 0 then (acc, contrib)
  else
    let acc' :=
      if 1 < pchan.bone.segments ∧ pchan.bbone_segments = pchan.bone.segments then
        b_bone_deform addW pchan co weight acc full_deform
      else
        pchan_deform_accumulate addW pchan.deform_dual_quat pchan.chan_mat co weight acc
          full_deform
    (acc', contrib + weight)

/-- One iteration of the vertex-group weight loop (lines 343–364): out-of-range
indices and null lookup entries are skipped, any resolvable non-null entry
sets the `deformed` flag, the weight is optionally multiplied by the envelope
factor, and the contribution is accumulated. -/
def vgroup_step (d : ArmatureUserdata Q) (co : V3) (full_deform : Bool)
    (s : Accum Q × ℝ × Bool) (dw : MDeformWeight) : Accum Q × ℝ × Bool :=
  if d.defbase_len ≤ dw.def_nr then s
  else
    match d.pchan_from_defbase.getD dw.def_nr none with
    | none => s
    | some pchan =>
        let bone := pchan.bone
        let weight :=
          if bone.flag_mult_vg_env then
            dw.weight * distfactor_to_bone co bone.arm_head bone.arm_tail bone.rad_head
              bone.rad_tail bone.dist
          else dw.weight
        let r := pchan_bone_deform addW pchan weight s.1 co full_deform s.2.1
        (r.1, r.2, true)

/-- The vertex-group weight loop over all `(bone index, weight)` entries. -/
def vgroup_loop (d : ArmatureUserdata Q) (co : V3) (full_deform : Bool)
    (s : Accum Q × ℝ × Bool) (dws : List MDeformWeight) : Accum Q × ℝ × Bool :=
  dws.foldl (vgroup_step addW d co full_deform) s

/-- One iteration of the whole-armature envelope loop (lines 366–374 and
376–384): channels flagged `BONE_NO_DEFORM` are skipped. -/
def envelope_step (co : V3) (full_deform : Bool) (s : Accum Q × ℝ)
    (pchan : BPoseChannel Q) : Accum Q × ℝ :=
  if pchan.bone.flag_no_deform then s
  else
    let r := dist_bone_deform addW pchan s.1 co full_deform
    (r.1, s.2 + r.2)

/-- The whole-armature envelope loop over `pose->chanbase`. -/
def envelope_loop (d : ArmatureUserdata Q) (co : V3) (full_deform : Bool)
    (s : Accum Q × ℝ) : Accum Q × ℝ :=
  d.chanbase.foldl (envelope_step addW co full_deform) s

/-- The accumulation stage of `armature_vert_task_with_dvert`
(lines 339–384): vertex-group weights when present and enabled, with the
whole-armature envelope fallback only when no vertex-group entry resolved;
otherwise the envelope loop alone when envelope mode is enabled. -/
def deform_stage (d : ArmatureUserdata Q) (co : V3)
    (dvert : Option (List MDeformWeight)) (full_deform : Bool) (acc0 : Accum Q) :
    Accum Q × ℝ :=
  match dvert with
  | some dws =>
      if d.use_dverts ∧ ¬ dws.isEmpty then
        let r := vgroup_loop addW d co full_deform (acc0, (0 : ℝ), false) dws
        if r.2.2 = false ∧ d.use_envelope then
          envelope_loop addW d co full_deform (r.1, r.2.1)
        else (r.1, r.2.1)
      else if d.use_envelope then envelope_loop addW d co full_deform (acc0, (0 : ℝ))
      else (acc0, 0)
  | none =>
      if d.use_envelope then envelope_loop addW d co full_deform (acc0, (0 : ℝ))
      else (acc0, 0)

/-- Modelled from the spec: `BKE_defvert_find_weight` (external vertex-group
storage, §4.3 step 1) resolves the weight of the vertex in the group with the
given index, 0 when the vertex is not in that group. -/
def defvert_find_weight (dvert : List MDeformWeight) (defgroup : ℕ) : ℝ :=
  match dvert.find? (fun dw => dw.def_nr == defgroup) with
  | some dw => dw.weight
  | none => 0

/-- Weight resolution of `armature_vert_task_with_dvert` (lines 302–316):
returns `(armature_weight, prevco_weight)`. -/
def resolve_weights (d : ArmatureUserdata Q) (dvert : Option (List MDeformWeight))
    (prev_present : Bool) : ℝ × ℝ :=
  match d.armature_def_nr, dvert with
  | some nr, some dv =>
      let w0 := defvert_find_weight dv nr
      let w1 := if d.invert_vgroup then 1 - w0 else w0
      if prev_present then (1, 1 - w1) else (w1, 0)
  | _, _ => (1, 0)

/-- Accumulator initialization (lines 278–300). The matrix accumulator is
zero-initialized here also when no matrix output is requested; the C code
leaves it untouched in that case and never reads it. -/
def init_accum (use_quaternion : Bool) : Accum Q :=
  if use_quaternion then .quat dqZero else .linear 0 0

/-- The application stage (lines 386–422): when the accumulated contribution
exceeds `1e-4`, normalize and apply the accumulator to the working coordinate
and compose the optional per-vertex matrix; otherwise leave both untouched.
Returns the updated working coordinate and the optional matrix write.  The
branch on the accumulator constructor corresponds to the C branch on
`use_quaternion`, which by construction selects the active accumulator. -/
def apply_contrib (premat postmat : M4aff) (r : Accum Q × ℝ) (co : V3)
    (armature_weight : ℝ) (full_deform : Bool) (mat_i : M3) : V3 × Option M3 :=
  if (1 : ℝ) / 10000 < r.2 then
    match r.1 with
    | .quat dq_accum =>
        let dq := normDq dq_accum r.2
        let co' :=
          if armature_weight ≠ 1 then co + armature_weight • (dqToCo dq co - co)
          else dqToCo dq co
        (co',
          if full_deform then
            some (copy_m3_m4 postmat * dqToMat dq * copy_m3_m4 premat * mat_i)
          else none)
    | .linear vec smat =>
        (co + (armature_weight / r.2) • vec,
          if full_deform then
            some (copy_m3_m4 postmat * ((armature_weight / r.2) • smat) *
              copy_m3_m4 premat * mat_i)
          else none)
  else (co, none)

/-- The observable effect of one per-vertex task on the three buffers:
`none` means the C code never wrote that slot. -/
structure VertResult where
  coordOut : Option V3
  prevOut : Option V3
  matOut : Option M3

/-- `armature_vert_task_with_dvert` (lines 266–434).  `co_i` is
`vert_coords[i]`, `prev_i` is `vert_coords_prev[i]` when that buffer is
present, `mat_i` is `vert_deform_mats[i]`, and `full_deform` records whether
the matrix buffer was supplied. -/
def armature_vert_task_with_dvert (d : ArmatureUserdata Q) (co_i : V3)
    (prev_i : Option V3) (mat_i : M3) (full_deform : Bool)
    (dvert : Option (List MDeformWeight)) : VertResult :=
  let acc0 : Accum Q := init_accum dqZero d.use_quaternion
  let aw_pw := resolve_weights d dvert prev_i.isSome
  let armature_weight := aw_pw.1
  let prevco_weight := aw_pw.2
  match prev_i with
  | some pco =>
      if prevco_weight = 1 then ⟨none, none, none⟩
      else
        let co := mul_m4_v3 d.premat pco
        let r := deform_stage addW d co dvert full_deform acc0
        let app := apply_contrib normDq dqToCo dqToMat d.premat d.postmat r co
            armature_weight full_deform mat_i
        let co3 := mul_m4_v3 d.postmat app.1
        let mw := 1 - prevco_weight
        ⟨some (fun j => prevco_weight * co_i j + mw * co3 j), some co3, app.2⟩
  | none =>
      if armature_weight = 0 then ⟨none, none, none⟩
      else
        let co := mul_m4_v3 d.premat co_i
        let r := deform_stage addW d co dvert full_deform acc0
        let app := apply_contrib normDq dqToCo dqToMat d.premat d.postmat r co
            armature_weight full_deform mat_i
        ⟨some (mul_m4_v3 d.postmat app.1), none, app.2⟩

/-! ## Helper lemmas about the kernel -/

theorem pchan_deform_accumulate_zero_weight (deform_dq : Q) (deform_mat : M4aff)
    (co_in : V3) (acc : Accum Q) (full_deform : Bool) :
    pchan_deform_accumulate addW deform_dq deform_mat co_in 0 acc full_deform = acc := by
  unfold pchan_deform_accumulate
  rw [if_pos rfl]

theorem mul_m4_v3_invert_roundtrip (M : M4aff) (hdet : IsUnit M.A.det) (x : V3) :
    mul_m4_v3 M (mul_m4_v3 (invert_m4 M) x) = x := by
  unfold mul_m4_v3 invert_m4
  simp only [Matrix.mulVec_add, Matrix.mulVec_neg, Matrix.mulVec_mulVec,
    Matrix.mul_nonsing_inv _ hdet, Matrix.one_mulVec]
  abel

/-! ## Claims C7, C8 -/

/-- C7: a B-Bone deform whose segment blend factor is exactly 0 (resp. 1)
equals the plain single-segment accumulate of the adjacent segment's dual
quaternion and matrix at the bone's full weight; the other segment
contributes nothing. -/
theorem c7_bbone_blend_degenerate (pchan : BPoseChannel Q) (co : V3) (w : ℝ)
    (acc : Accum Q) (full_deform : Bool) :
    ((pchan.bbone_segment_index co).2 = 0 →
      b_bone_deform addW pchan co w acc full_deform =
        pchan_deform_accumulate addW
          (pchan.bbone_dual_quats (pchan.bbone_segment_index co).1)
          (pchan.bbone_deform_mats ((pchan.bbone_segment_index co).1 + 1))
          co w acc full_deform) ∧
    ((pchan.bbone_segment_index co).2 = 1 →
      b_bone_deform addW pchan co w acc full_deform =
        pchan_deform_accumulate addW
          (pchan.bbone_dual_quats ((pchan.bbone_segment_index co).1 + 1))
          (pchan.bbone_deform_mats ((pchan.bbone_segment_index co).1 + 2))
          co w acc full_deform) := by
  constructor
  · intro h
    simp only [b_bone_deform, h, sub_zero, mul_one, mul_zero]
    rw [pchan_deform_accumulate_zero_weight]
  · intro h
    simp only [b_bone_deform, h, sub_self, mul_one, mul_zero]
    rw [pchan_deform_accumulate_zero_weight]

/-- C8: a weight entry whose bone index is outside the bone-table range is
silently skipped: removing it from anywhere in the entry list leaves the loop
result (accumulator, contribution, and `deformed` flag) unchanged, and the
surrounding entries are still processed. -/
theorem c8_out_of_range_entry_skipped (d : ArmatureUserdata Q) (co : V3)
    (full_deform : Bool) (s : Accum Q × ℝ × Bool) (e1 e2 : List MDeformWeight)
    (idx : ℕ) (w : ℝ) (h : d.defbase_len ≤ idx) :
    vgroup_loop addW d co full_deform s (e1 ++ ⟨idx, w⟩ :: e2) =
      vgroup_loop addW d co full_deform s (e1 ++ e2) := by
  unfold vgroup_loop
  rw [List.foldl_append, List.foldl_append, List.foldl_cons]
  congr 1
  unfold vgroup_step
  rw [if_pos h]

/-- The `deformed` flag computed by the vertex-group loop is set exactly when
some entry has an in-range bone index whose lookup-table cell is non-null. -/
theorem vgroup_loop_deformed_eq (d : ArmatureUserdata Q) (co : V3)
    (full_deform : Bool) (l : List MDeformWeight) (s : Accum Q × ℝ × Bool) :
    (vgroup_loop addW d co full_deform s l).2.2 =
      (s.2.2 || l.any fun dw =>
        decide (dw.def_nr < d.defbase_len) &&
          (d.pchan_from_defbase.getD dw.def_nr none).isSome) := by
  induction l generalizing s with
  | nil => simp [vgroup_loop]
  | cons a l ih =>
    have hfold : vgroup_loop addW d co full_deform s (a :: l) =
        vgroup_loop addW d co full_deform (vgroup_step addW d co full_deform s a) l := rfl
    rw [hfold, ih]
    by_cases h1 : d.defbase_len ≤ a.def_nr
    · have hlt : ¬ a.def_nr < d.defbase_len := not_lt.mpr h1
      simp [vgroup_step, h1, hlt]
    · push_neg at h1
      have hle : ¬ d.defbase_len ≤ a.def_nr := not_le.mpr h1
      cases hcell : d.pchan_from_defbase.getD a.def_nr none with
      | none =>
        rw [show vgroup_step addW d co full_deform s a = s by
          simp only [vgroup_step]
          rw [if_neg hle, hcell]]
        rw [List.getD_eq_getElem?_getD] at hcell
        simp [h1, hcell]
      | some pc =>
        have hstep : (vgroup_step addW d co full_deform s a).2.2 = true := by
          simp only [vgroup_step]
          rw [if_neg hle, hcell]
        rw [List.getD_eq_getElem?_getD] at hcell
        simp [hstep, h1, hcell]

/-! ## Claims C3, C4, C2 -/

/-- C3: with vertex-group weights present and enabled, the whole-armature
envelope fallback runs exactly when the vertex-group loop set no `deformed`
flag: if the flag is set the stage result is the vertex-group accumulation
alone, whatever the envelope mode; if it is clear the envelope loop is
appended exactly when envelope mode is enabled; and the flag is set iff some
weight entry resolves to an in-range, non-null bone-table cell. -/
theorem c3_vgroup_precedence (d : ArmatureUserdata Q) (co : V3) (full_deform : Bool)
    (acc0 : Accum Q) (dv : List MDeformWeight)
    (hud : d.use_dverts = true) (hne : dv.isEmpty = false) :
    ((vgroup_loop addW d co full_deform (acc0, (0 : ℝ), false) dv).2.2 = true →
      deform_stage addW d co (some dv) full_deform acc0 =
        ((vgroup_loop addW d co full_deform (acc0, (0 : ℝ), false) dv).1,
         (vgroup_loop addW d co full_deform (acc0, (0 : ℝ), false) dv).2.1)) ∧
    ((vgroup_loop addW d co full_deform (acc0, (0 : ℝ), false) dv).2.2 = false →
      d.use_envelope = true →
      deform_stage addW d co (some dv) full_deform acc0 =
        envelope_loop addW d co full_deform
          ((vgroup_loop addW d co full_deform (acc0, (0 : ℝ), false) dv).1,
           (vgroup_loop addW d co full_deform (acc0, (0 : ℝ), false) dv).2.1)) ∧
    ((vgroup_loop addW d co full_deform (acc0, (0 : ℝ), false) dv).2.2 = false →
      d.use_envelope = false →
      deform_stage addW d co (some dv) full_deform acc0 =
        ((vgroup_loop addW d co full_deform (acc0, (0 : ℝ), false) dv).1,
         (vgroup_loop addW d co full_deform (acc0, (0 : ℝ), false) dv).2.1)) ∧
    ((vgroup_loop addW d co full_deform (acc0, (0 : ℝ), false) dv).2.2 = true ↔
      ∃ dw ∈ dv, dw.def_nr < d.defbase_len ∧
        (d.pchan_from_defbase.getD dw.def_nr none).isSome = true) := by
  refine ⟨fun hdef => ?_, fun hdef henv => ?_, fun hdef henv => ?_, ?_⟩
  · simp only [deform_stage, hud, hne]
    rw [if_pos (by simp), if_neg (by simp [hdef])]
  · simp only [deform_stage, hud, hne]
    rw [if_pos (by simp), if_pos (by simp [hdef, henv])]
  · simp only [deform_stage, hud, hne]
    rw [if_pos (by simp), if_neg (by simp [henv])]
  · rw [vgroup_loop_deformed_eq]
    simp [List.any_eq_true]

/-- C4: a vertex whose effective working weight is zero — resolved armature
weight 0 with no previous-coordinates buffer, or previous-coordinate weight
exactly 1 when that buffer is supplied — is skipped entirely: no buffer slot
is written. -/
theorem c4_zero_weight_early_out (d : ArmatureUserdata Q) (co_i : V3) (mat_i : M3)
    (full_deform : Bool) (dvert : Option (List MDeformWeight)) :
    ((resolve_weights d dvert false).1 = 0 →
      armature_vert_task_with_dvert addW normDq dqToCo dqToMat dqZero d co_i none mat_i
        full_deform dvert = ⟨none, none, none⟩) ∧
    (∀ pco : V3, (resolve_weights d dvert true).2 = 1 →
      armature_vert_task_with_dvert addW normDq dqToCo dqToMat dqZero d co_i (some pco) mat_i
        full_deform dvert = ⟨none, none, none⟩) := by
  constructor
  · intro h
    simp only [armature_vert_task_with_dvert, Option.isSome_none]
    rw [if_pos h]
  · intro pco h
    simp only [armature_vert_task_with_dvert, Option.isSome_some]
    rw [if_pos h]

/-- C2: a processed vertex (no previous-coordinates buffer, nonzero armature
weight) whose accumulated contribution is at most `1e-4` has its position
transformed by `premat` then `postmat` only, its optional deformation-matrix
slot is not written, and — `premat` being the inverse of `postmat` — the
round trip returns the original coordinate exactly. -/
theorem c2_low_contrib_passthrough (d : ArmatureUserdata Q) (co_i : V3) (mat_i : M3)
    (full_deform : Bool) (dvert : Option (List MDeformWeight))
    (haw : (resolve_weights d dvert false).1 ≠ 0)
    (hc : (deform_stage addW d (mul_m4_v3 d.premat co_i) dvert full_deform
        (init_accum dqZero d.use_quaternion)).2 ≤ 1 / 10000)
    (hpre : d.premat = invert_m4 d.postmat)
    (hdet : IsUnit d.postmat.A.det) :
    armature_vert_task_with_dvert addW normDq dqToCo dqToMat dqZero d co_i none mat_i
        full_deform dvert =
      ⟨some (mul_m4_v3 d.postmat (mul_m4_v3 d.premat co_i)), none, none⟩ ∧
    mul_m4_v3 d.postmat (mul_m4_v3 d.premat co_i) = co_i := by
  constructor
  · simp only [armature_vert_task_with_dvert, Option.isSome_none]
    rw [if_neg haw]
    have happ : apply_contrib normDq dqToCo dqToMat d.premat d.postmat
        (deform_stage addW d (mul_m4_v3 d.premat co_i) dvert full_deform
          (init_accum dqZero d.use_quaternion)) (mul_m4_v3 d.premat co_i)
        (resolve_weights d dvert false).1 full_deform mat_i =
        (mul_m4_v3 d.premat co_i, none) := by
      unfold apply_contrib
      rw [if_neg (not_lt.mpr hc)]
    rw [happ]
  · rw [hpre]
    exact mul_m4_v3_invert_roundtrip d.postmat hdet co_i

/-! ## Batch driver (`armature_deform_coords_impl` and the public entry
points, lines 486–720)

External data the driver consults (object/armature/mesh records, name-keyed
lookups) is modelled structurally; `perVert = none` means the driver returned
before touching any buffer. -/

/-- A `bDeformGroup` list entry: only the name is consulted. -/
structure DefGroup where
  name : String

/-- The fields of an evaluated `Mesh` the driver reads. -/
structure MeshT where
  defbase : List DefGroup
  deform_verts : List (List MDeformWeight)

/-- The fields of a `BMEditMesh` the driver reads: whether the vertex custom
data has an `MDeformVert` layer, and the vertex pool as (index, deform-vert)
pairs walked by the mempool iterator. -/
structure EditMeshT where
  cd_has_dvert : Bool
  verts : List (ℕ × Option (List MDeformWeight))

/-- The fields of `bPose` the driver reads: the `POSE_RECALC` flag and the
channel list. -/
structure PoseT (Q : Type) where
  flag_recalc : Bool
  chanbase : List (BPoseChannel Q)

/-- The armature object: edit-bones presence (`arm->edbo`), the optional
pose, and the object-to-world transform. -/
structure ArmObject (Q : Type) where
  edbo : Bool
  pose : Option (PoseT Q)
  object_to_world : M4aff

/-- The target object data variants distinguished by
`BKE_armature_deform_coords_with_mesh` (lines 672–681). -/
inductive TargetKind
  | mesh (data : MeshT)
  | lattice (dverts : List (List MDeformWeight))
  | other

/-- The fields of the target object the driver reads. -/
structure TargetObject where
  supports_vgroups : Bool
  id_supports_vgroups : Bool
  id_defbase : List DefGroup
  kind : TargetKind
  object_to_world : M4aff

/-- The four `ARM_DEF_*` bits consulted by the driver. -/
structure DeformFlag where
  envelope : Bool
  quaternion : Bool
  invert_vgroup : Bool
  vgroup : Bool

/-- The observable effect of one driver invocation: whether the stale-pose
diagnostic fired, and the per-vertex task results (`none` when the driver
returned without dispatching). -/
structure ImplOut where
  warned : Bool
  perVert : Option (List (ℕ × VertResult))

/-- Modelled from the spec: `BKE_pose_channel_find_name` (external pose
evaluation system), a name-keyed lookup over the pose's channel list. -/
def pose_channel_find_name (pose : PoseT Q) (name : String) :
    Option (BPoseChannel Q) :=
  pose.chanbase.find? (fun pc => pc.name == name)

/-- Modelled from the spec: `BKE_defgroup_name_index` (external vertex-group
storage), the index of the named group, `none` (C: `-1`) for an empty name or
a name not present. -/
def defgroup_name_index (defbase : List DefGroup) (name : String) : Option ℕ :=
  if name = "" then none
  else defbase.findIdx? (fun dg => dg.name == name)

/-- The per-vertex deform-vert selection of `armature_vert_task`
(lines 436–464).  An index beyond the mesh deform-vert array would be
undefined behaviour in C (guarded by an assert); it yields `none` here. -/
def armature_vert_task_select_dvert (use_dverts : Bool) (armature_def_nr : Option ℕ)
    (me_target : Option MeshT) (dverts : List (List MDeformWeight)) (i : ℕ) :
    Option (List MDeformWeight) :=
  if use_dverts ∨ armature_def_nr ≠ none then
    match me_target with
    | some _ => if dverts.isEmpty then none else dverts[i]?
    | none => if ¬ dverts.isEmpty ∧ i < dverts.length then dverts[i]? else none
  else none

section Driver

/-- `armature_deform_coords_impl` (lines 486–610): the edit-mode / null-pose
early return, the stale-pose diagnostic, vertex-group setup, the bone-table
build, the shared pre/post matrices, and the dispatch over the vertex batch
(the task-parallel loop is modelled as a map over the same per-vertex task,
which each worker applies to its own disjoint index). -/
def armature_deform_coords_impl (ob_arm : ArmObject Q) (ob_target : TargetObject)
    (defbase : List DefGroup) (vert_coords : List V3)
    (vert_deform_mats : Option (List M3)) (vert_coords_len : ℕ)
    (deformflag : DeformFlag) (vert_coords_prev : Option (List V3))
    (defgrp_name : String) (dverts : List (List MDeformWeight))
    (me_target : Option MeshT) (em_target : Option EditMeshT) : ImplOut :=
  match ob_arm.pose with
  | none => ⟨false, none⟩
  | some pose =>
    if ob_arm.edbo then ⟨false, none⟩
    else
      let warned := pose.flag_recalc
      let supports := ob_target.supports_vgroups
      let armature_def_nr :=
        if supports then defgroup_name_index defbase defgrp_name else none
      let defbase_len := if supports then defbase.length else 0
      let use_dverts : Bool :=
        if supports && deformflag.vgroup then
          match em_target, me_target with
          | some em, _ => em.cd_has_dvert
          | none, some me => !me.deform_verts.isEmpty
          | none, none => decide (dverts.length = vert_coords_len)
        else false
      let pchan_from_defbase : List (Option (BPoseChannel Q)) :=
        if use_dverts then
          defbase.map fun dg =>
            match pose_channel_find_name pose dg.name with
            | none => none
            | some pc => if pc.bone.flag_no_deform then none else some pc
        else []
      let postmat := mul_m4_m4m4 (invert_m4 ob_target.object_to_world)
          ob_arm.object_to_world
      let premat := invert_m4 postmat
      let d : ArmatureUserdata Q :=
        ⟨pose.chanbase, deformflag.envelope, deformflag.quaternion,
         deformflag.invert_vgroup, use_dverts, armature_def_nr, pchan_from_defbase,
         defbase_len, premat, postmat⟩
      let full_deform := vert_deform_mats.isSome
      let runTask := fun (i : ℕ) (dv : Option (List MDeformWeight)) =>
        armature_vert_task_with_dvert addW normDq dqToCo dqToMat dqZero d
          (vert_coords.getD i 0)
          (vert_coords_prev.map fun ps => ps.getD i 0)
          ((vert_deform_mats.getD []).getD i 1)
          full_deform dv
      let results : List (ℕ × VertResult) :=
        match em_target with
        | some em =>
            if use_dverts then em.verts.map fun v => (v.1, runTask v.1 v.2)
            else em.verts.map fun v => (v.1, runTask v.1 none)
        | none =>
            (List.range vert_coords_len).map fun i =>
              (i, runTask i (armature_vert_task_select_dvert use_dverts armature_def_nr
                me_target dverts i))
      ⟨warned, some results⟩

/-- `BKE_armature_deform_coords_with_curves` (lines 612–646): vertex groups
and deform-verts are supplied explicitly. -/
def BKE_armature_deform_coords_with_curves (ob_arm : ArmObject Q)
    (ob_target : TargetObject) (defbase : List DefGroup) (vert_coords : List V3)
    (vert_coords_prev : Option (List V3)) (vert_deform_mats : Option (List M3))
    (dverts : List (List MDeformWeight)) (deformflag : DeformFlag)
    (defgrp_name : String) : ImplOut :=
  armature_deform_coords_impl addW normDq dqToCo dqToMat dqZero ob_arm ob_target defbase
    vert_coords vert_deform_mats vert_coords.length deformflag vert_coords_prev
    defgrp_name dverts none none

/-- `BKE_armature_deform_coords_with_mesh` (lines 648–695): resolves the
group list from the evaluated mesh or the original object data, and the
deform-verts from the mesh or lattice. -/
def BKE_armature_deform_coords_with_mesh (ob_arm : ArmObject Q)
    (ob_target : TargetObject) (vert_coords : List V3)
    (vert_deform_mats : Option (List M3)) (vert_coords_len : ℕ)
    (deformflag : DeformFlag) (vert_coords_prev : Option (List V3))
    (defgrp_name : String) (me_target : Option MeshT) : ImplOut :=
  let defbase :=
    match me_target with
    | some me => me.defbase
    | none => if ob_target.id_supports_vgroups then ob_target.id_defbase else []
  let me_target2 :=
    match ob_target.kind with
    | .mesh data => some (me_target.getD data)
    | _ => me_target
  let dverts :=
    match ob_target.kind with
    | .mesh data => (me_target.getD data).deform_verts
    | .lattice dvs => dvs
    | .other => []
  armature_deform_coords_impl addW normDq dqToCo dqToMat dqZero ob_arm ob_target defbase
    vert_coords vert_deform_mats vert_coords_len deformflag vert_coords_prev defgrp_name
    dverts me_target2 none

/-- `BKE_armature_deform_coords_with_editmesh` (lines 697–720). -/
def BKE_armature_deform_coords_with_editmesh (ob_arm : ArmObject Q)
    (ob_target : TargetObject) (vert_coords : List V3)
    (vert_deform_mats : Option (List M3)) (vert_coords_len : ℕ)
    (deformflag : DeformFlag) (vert_coords_prev : Option (List V3))
    (defgrp_name : String) (em_target : EditMeshT) : ImplOut :=
  armature_deform_coords_impl addW normDq dqToCo dqToMat dqZero ob_arm ob_target
    ob_target.id_defbase vert_coords vert_deform_mats vert_coords_len deformflag
    vert_coords_prev defgrp_name [] none (some em_target)

/-! ## Claims C9, C10 -/

/-- C9: with a pose present (not edit mode) whose `POSE_RECALC` flag is set,
the driver emits the diagnostic but still dispatches the whole batch, and the
per-vertex results are identical to those with the flag clear. -/
theorem c9_stale_pose_warns_and_proceeds (ob_target : TargetObject) (p : PoseT Q)
    (otw : M4aff) (defbase : List DefGroup) (vert_coords : List V3)
    (vert_deform_mats : Option (List M3)) (vert_coords_len : ℕ)
    (deformflag : DeformFlag) (vert_coords_prev : Option (List V3))
    (defgrp_name : String) (dverts : List (List MDeformWeight))
    (me_target : Option MeshT) (em_target : Option EditMeshT)
    (hp : p.flag_recalc = true) :
    (armature_deform_coords_impl addW normDq dqToCo dqToMat dqZero
        ⟨false, some p, otw⟩ ob_target defbase vert_coords vert_deform_mats
        vert_coords_len deformflag vert_coords_prev defgrp_name dverts me_target
        em_target).warned = true ∧
    (armature_deform_coords_impl addW normDq dqToCo dqToMat dqZero
        ⟨false, some p, otw⟩ ob_target defbase vert_coords vert_deform_mats
        vert_coords_len deformflag vert_coords_prev defgrp_name dverts me_target
        em_target).perVert =
      (armature_deform_coords_impl addW normDq dqToCo dqToMat dqZero
        ⟨false, some ⟨false, p.chanbase⟩, otw⟩ ob_target defbase vert_coords
        vert_deform_mats vert_coords_len deformflag vert_coords_prev defgrp_name dverts
        me_target em_target).perVert ∧
    (armature_deform_coords_impl addW normDq dqToCo dqToMat dqZero
        ⟨false, some p, otw⟩ ob_target defbase vert_coords vert_deform_mats
        vert_coords_len deformflag vert_coords_prev defgrp_name dverts me_target
        em_target).perVert ≠ none := by
  obtain ⟨fr, cb⟩ := p
  simp only at hp
  subst hp
  refine ⟨?_, ?_, ?_⟩
  · simp [armature_deform_coords_impl]
  · simp [armature_deform_coords_impl, pose_channel_find_name]
  · simp [armature_deform_coords_impl]

/-- C10: if the armature is in edit mode (edit-bones present) or has no pose,
each of the three public entry points is a complete no-op: no buffer slot is
touched and no diagnostic is emitted. -/
theorem c10_editmode_or_no_pose_noop (ob_arm : ArmObject Q)
    (ob_target : TargetObject) (defbase : List DefGroup) (vert_coords : List V3)
    (vert_coords_prev : Option (List V3)) (vert_deform_mats : Option (List M3))
    (dverts : List (List MDeformWeight)) (deformflag : DeformFlag)
    (defgrp_name : String) (vert_coords_len : ℕ) (me_target : Option MeshT)
    (em_target : EditMeshT)
    (h : ob_arm.edbo = true ∨ ob_arm.pose = none) :
    BKE_armature_deform_coords_with_curves addW normDq dqToCo dqToMat dqZero ob_arm
        ob_target defbase vert_coords vert_coords_prev vert_deform_mats dverts deformflag
        defgrp_name = ⟨false, none⟩ ∧
    BKE_armature_deform_coords_with_mesh addW normDq dqToCo dqToMat dqZero ob_arm
        ob_target vert_coords vert_deform_mats vert_coords_len deformflag vert_coords_prev
        defgrp_name me_target = ⟨false, none⟩ ∧
    BKE_armature_deform_coords_with_editmesh addW normDq dqToCo dqToMat dqZero ob_arm
        ob_target vert_coords vert_deform_mats vert_coords_len deformflag vert_coords_prev
        defgrp_name em_target = ⟨false, none⟩ := by
  have himpl : ∀ (defbase2 : List DefGroup) (vc : List V3) (vdm : Option (List M3))
      (len : ℕ) (df : DeformFlag) (vcp : Option (List V3)) (nm : String)
      (dvs : List (List MDeformWeight)) (mt : Option MeshT) (emt : Option EditMeshT),
      armature_deform_coords_impl addW normDq dqToCo dqToMat dqZero ob_arm ob_target
        defbase2 vc vdm len df vcp nm dvs mt emt = ⟨false, none⟩ := by
    intro defbase2 vc vdm len df vcp nm dvs mt emt
    cases hpose : ob_arm.pose with
    | none => simp [armature_deform_coords_impl, hpose]
    | some pp =>
      rcases h with he | hn
      · simp [armature_deform_coords_impl, hpose, he]
      · rw [hpose] at hn
        cases hn
  refine ⟨?_, ?_, ?_⟩
  · simp only [BKE_armature_deform_coords_with_curves]
    exact himpl _ _ _ _ _ _ _ _ _ _
  · simp only [BKE_armature_deform_coords_with_mesh]
    exact himpl _ _ _ _ _ _ _ _ _ _
  · simp only [BKE_armature_deform_coords_with_editmesh]
    exact himpl _ _ _ _ _ _ _ _ _ _

end Driver

end Kernel

/-! ## Concrete instances for witnesses -/

/-- A trivial dual-quaternion instance for witness evaluation. -/
def addW0 : Unit → Unit → V3 → ℝ → Bool → Unit := fun a _ _ _ _ => a

def normDq0 : Unit → ℝ → Unit := fun a _ => a

def dqToCo0 : Unit → V3 → V3 := fun _ v => v

def dqToMat0 : Unit → M3 := fun _ => 1

def v3zero : V3 := fun _ => 0

def idM4 : M4aff := ⟨1, 0⟩

/-- A minimal userdata record: no channels, empty bone table. -/
def d0 : ArmatureUserdata Unit :=
  ⟨[], false, false, false, true, none, [], 0, idM4, idM4⟩

/-- Witness for C7: a channel whose segment-index function returns blend 0. -/
def pchan0 : BPoseChannel Unit :=
  ⟨"Bone", ⟨v3zero, v3zero, 1, 1, 1, 1, 0, false, false⟩, idM4, (), 0,
    fun _ => (), fun _ => idM4, fun _ => (0, 0)⟩

theorem c7_bbone_blend_degenerate_witness :
    b_bone_deform addW0 pchan0 v3zero 1 (Accum.linear 0 0) false =
      pchan_deform_accumulate addW0 (pchan0.bbone_dual_quats 0)
        (pchan0.bbone_deform_mats 1) v3zero 1 (Accum.linear 0 0) false := by
  have h := (c7_bbone_blend_degenerate addW0 pchan0 v3zero 1 (Accum.linear 0 0) false).1
    (by simp [pchan0])
  simpa [pchan0] using h

theorem c8_out_of_range_entry_skipped_witness :
    vgroup_loop addW0 d0 v3zero false (Accum.linear 0 0, 0, false) [⟨5, 1⟩] =
      vgroup_loop addW0 d0 v3zero false (Accum.linear 0 0, 0, false) [] := by
  simpa using
    c8_out_of_range_entry_skipped addW0 d0 v3zero false (Accum.linear 0 0, 0, false)
      [] [] 5 1 (by simp [d0])

/-- Userdata with one resolvable bone-table entry, for the C3 witness. -/
def d1 : ArmatureUserdata Unit :=
  ⟨[], true, false, false, true, none, [some pchan0], 1, idM4, idM4⟩

theorem c3_vgroup_precedence_witness :
    deform_stage addW0 d1 v3zero (some [⟨0, 1⟩]) false (Accum.linear 0 0) =
      ((vgroup_loop addW0 d1 v3zero false (Accum.linear 0 0, (0 : ℝ), false) [⟨0, 1⟩]).1,
       (vgroup_loop addW0 d1 v3zero false (Accum.linear 0 0, (0 : ℝ), false) [⟨0, 1⟩]).2.1) :=
  (c3_vgroup_precedence addW0 d1 v3zero false (Accum.linear 0 0) [⟨0, 1⟩] rfl rfl).1 rfl

/-- Userdata whose overall armature group is group 0, for the C4 witness. -/
def d2 : ArmatureUserdata Unit :=
  ⟨[], false, false, false, false, some 0, [], 0, idM4, idM4⟩

theorem c4_zero_weight_early_out_witness :
    armature_vert_task_with_dvert addW0 normDq0 dqToCo0 dqToMat0 () d2 v3zero none 1 false
        (some [⟨0, 0⟩]) = ⟨none, none, none⟩ := by
  apply (c4_zero_weight_early_out addW0 normDq0 dqToCo0 dqToMat0 () d2 v3zero 1 false
    (some [⟨0, 0⟩])).1
  simp [resolve_weights, d2, defvert_find_weight]

/-- Userdata with no groups and no envelope, for the C2 witness. -/
def d3 : ArmatureUserdata Unit :=
  ⟨[], false, false, false, false, none, [], 0, idM4, idM4⟩

theorem c2_low_contrib_passthrough_witness :
    armature_vert_task_with_dvert addW0 normDq0 dqToCo0 dqToMat0 () d3 v3zero none 1 false
        none =
      ⟨some (mul_m4_v3 d3.postmat (mul_m4_v3 d3.premat v3zero)), none, none⟩ ∧
    mul_m4_v3 d3.postmat (mul_m4_v3 d3.premat v3zero) = v3zero := by
  refine c2_low_contrib_passthrough addW0 normDq0 dqToCo0 dqToMat0 () d3 v3zero 1 false none
    ?_ ?_ ?_ ?_
  · simp [resolve_weights, d3]
  · simp [deform_stage, d3]
  · show idM4 = invert_m4 idM4
    unfold idM4 invert_m4
    have hinv : (1 : M3)⁻¹ = 1 := Matrix.inv_eq_left_inv (by rw [one_mul])
    simp [hinv]
  · simp [d3, idM4]

/-- A minimal target object, for the driver witnesses. -/
def tgt0 : TargetObject := ⟨false, false, [], .other, idM4⟩

/-- A pose with the `POSE_RECALC` flag set, for the C9 witness. -/
def pose0 : PoseT Unit := ⟨true, []⟩

/-- A deform-flag set with every bit clear, for the driver witnesses. -/
def flag0 : DeformFlag := ⟨false, false, false, false⟩

theorem c9_stale_pose_warns_and_proceeds_witness :
    (armature_deform_coords_impl addW0 normDq0 dqToCo0 dqToMat0 ()
        ⟨false, some pose0, idM4⟩ tgt0 [] [] none 0 flag0 none "" [] none
        none).warned = true ∧
    (armature_deform_coords_impl addW0 normDq0 dqToCo0 dqToMat0 ()
        ⟨false, some pose0, idM4⟩ tgt0 [] [] none 0 flag0 none "" [] none
        none).perVert =
      (armature_deform_coords_impl addW0 normDq0 dqToCo0 dqToMat0 ()
        ⟨false, some ⟨false, pose0.chanbase⟩, idM4⟩ tgt0 [] [] none 0 flag0 none "" []
        none none).perVert ∧
    (armature_deform_coords_impl addW0 normDq0 dqToCo0 dqToMat0 ()
        ⟨false, some pose0, idM4⟩ tgt0 [] [] none 0 flag0 none "" [] none
        none).perVert ≠ none :=
  c9_stale_pose_warns_and_proceeds addW0 normDq0 dqToCo0 dqToMat0 () tgt0 pose0 idM4
    [] [] none 0 flag0 none "" [] none none rfl

theorem c10_editmode_or_no_pose_noop_witness :
    BKE_armature_deform_coords_with_curves addW0 normDq0 dqToCo0 dqToMat0 ()
        ⟨true, none, idM4⟩ tgt0 [] [] none none [] flag0 "" = ⟨false, none⟩ ∧
    BKE_armature_deform_coords_with_mesh addW0 normDq0 dqToCo0 dqToMat0 ()
        ⟨true, none, idM4⟩ tgt0 [] none 0 flag0 none "" none = ⟨false, none⟩ ∧
    BKE_armature_deform_coords_with_editmesh addW0 normDq0 dqToCo0 dqToMat0 ()
        ⟨true, none, idM4⟩ tgt0 [] none 0 flag0 none "" ⟨false, []⟩ = ⟨false, none⟩ :=
  c10_editmode_or_no_pose_noop addW0 normDq0 dqToCo0 dqToMat0 () ⟨true, none, idM4⟩ tgt0
    [] [] none none [] flag0 "" 0 none ⟨false, []⟩ (Or.inl rfl)

end

end ArmatureDeform
